import Mathlib

/-!
Verification of the multi-model response orchestrator described by the
repository's documentation, together with the selected-model and message
sending logic of `frontend/src/App.jsx`.

The concrete backend file (`backend/ai_orchestrator.py`) is referenced by
the repository's README but is not part of the reviewed sources, so the
orchestrator pipeline (adapter, dispatcher, scorer, selector, ledger) is
modelled from the specification text; the frontend definitions are
translated directly from `frontend/src/App.jsx`.
-/

namespace Chatbot

/-- Modelled from the spec: the adapter error taxonomy of §7
(`AdapterTimeout`, `AdapterTransportError`, `AdapterInvalidResponse`).
The orchestration-level errors are separate (see `OrchError`). -/
inductive ErrorKind where
  | adapterTimeout
  | adapterTransportError
  | adapterInvalidResponse
deriving DecidableEq

/-- Modelled from the spec: a `ModelResponse` (§3) — model identifier,
content (may be empty on error), optional error kind, latency in
milliseconds, optional provider-reported raw confidence. The backend file
that builds these is absent from the sources. -/
structure ModelResponse where
  modelId : String
  content : String
  error : Option ErrorKind
  latencyMs : ℕ
  rawConfidence : Option ℚ
deriving DecidableEq

/-- Modelled from the spec: per-model long-lived statistics (§3) — running
average score, running average latency, invocation count, selected-as-best
count, positive/negative feedback counts. -/
structure ModelStats where
  avgScore : ℚ
  avgLatencyMs : ℚ
  invocationCount : ℕ
  selectedCount : ℕ
  positiveFeedback : ℕ
  negativeFeedback : ℕ
deriving DecidableEq

/-- Modelled from the spec: a `ResponseScore` (§3) — the four weighted
components and the composite value. -/
structure ResponseScore where
  quality : ℚ
  confidence : ℚ
  history : ℚ
  speed : ℚ
  composite : ℚ
deriving DecidableEq

/-- Clamp a raw signal into the component range [0, 10]. -/
def clampComponent (x : ℚ) : ℚ := max 0 (min 10 x)

/-- Modelled from the spec: the length-normalized text-quality heuristic of
§4.3, computed from content alone and capped at 10. The precise heuristic
is left open by the documentation (§9); a documented deterministic choice
is made here: one quality point per 40 characters of content, saturating
at 10. -/
def qualityHeuristic (content : String) : ℚ :=
  min 10 ((content.length : ℚ) / 40)

/-- Modelled from the spec: provider-reported confidence scaled to [0, 10]
when present, else the fixed neutral default 5 (§4.3). -/
def confidenceComponent (raw : Option ℚ) : ℚ :=
  match raw with
  | none => 5
  | some c => clampComponent (10 * c)

/-- Modelled from the spec: the fixed cold-start neutral midpoint used as
the history component for never-before-seen models (§4.3). -/
def coldStartHistory : ℚ := 5

/-- Modelled from the spec: history component derived from the model's
running average score in `ModelStats`, with the cold-start neutral
midpoint for unseen models (§4.3). -/
def historyComponent (stats : Option ModelStats) : ℚ :=
  match stats with
  | none => coldStartHistory
  | some st => clampComponent st.avgScore

/-- Modelled from the spec: speed component as a clamped inverse function
of latency (§4.3) — 10 for an instantaneous response, saturating towards 0
for very slow ones, never unbounded. -/
def speedComponent (latencyMs : ℕ) : ℚ :=
  10000 / (1000 + (latencyMs : ℚ))

/-- The composite weighting of §4.3 and README "Ensemble Learning":
40% quality, 30% confidence, 20% history, 10% speed. -/
def compositeOf (q c h sp : ℚ) : ℚ :=
  4/10 * q + 3/10 * c + 2/10 * h + 1/10 * sp

/-- Modelled from the spec: `score(response, modelStats) → ResponseScore`
(§4.3), a pure function. An error-kind response scores 0 on the quality
axis; a failed call carries no provider confidence and no usable speed
signal, so those components are also 0, leaving only the history
component — this realizes the §4.3 guarantee that an error response
scores strictly below every successful response evaluated under the same
model history. -/
def score (r : ModelResponse) (stats : Option ModelStats) : ResponseScore :=
  let h := historyComponent stats
  if r.error.isSome then
    { quality := 0, confidence := 0, history := h, speed := 0,
      composite := compositeOf 0 0 h 0 }
  else
    let q := qualityHeuristic r.content
    let c := confidenceComponent r.rawConfidence
    let sp := speedComponent r.latencyMs
    { quality := q, confidence := c, history := h, speed := sp,
      composite := compositeOf q c h sp }

theorem clampComponent_nonneg (x : ℚ) : 0 ≤ clampComponent x :=
  le_max_left 0 _

theorem clampComponent_le_ten (x : ℚ) : clampComponent x ≤ 10 := by
  unfold clampComponent
  rcases le_total 0 (min 10 x) with h | h
  · exact (max_eq_right h).le.trans (min_le_left 10 x)
  · simp [max_eq_left h]

theorem qualityHeuristic_nonneg (s : String) : 0 ≤ qualityHeuristic s := by
  unfold qualityHeuristic
  have h1 : (0 : ℚ) ≤ (s.length : ℚ) / 40 := by positivity
  exact le_min (by norm_num) h1

theorem qualityHeuristic_le_ten (s : String) : qualityHeuristic s ≤ 10 :=
  min_le_left _ _

theorem confidenceComponent_nonneg (raw : Option ℚ) :
    0 ≤ confidenceComponent raw := by
  cases raw with
  | none => norm_num [confidenceComponent]
  | some c => exact clampComponent_nonneg _

theorem confidenceComponent_le_ten (raw : Option ℚ) :
    confidenceComponent raw ≤ 10 := by
  cases raw with
  | none => norm_num [confidenceComponent]
  | some c => exact clampComponent_le_ten _

theorem historyComponent_nonneg (stats : Option ModelStats) :
    0 ≤ historyComponent stats := by
  cases stats with
  | none => norm_num [historyComponent, coldStartHistory]
  | some st => exact clampComponent_nonneg _

theorem historyComponent_le_ten (stats : Option ModelStats) :
    historyComponent stats ≤ 10 := by
  cases stats with
  | none => norm_num [historyComponent, coldStartHistory]
  | some st => exact clampComponent_le_ten _

theorem speedComponent_pos (latencyMs : ℕ) : 0 < speedComponent latencyMs := by
  unfold speedComponent
  positivity

theorem speedComponent_le_ten (latencyMs : ℕ) : speedComponent latencyMs ≤ 10 := by
  unfold speedComponent
  rw [div_le_iff₀ (by positivity)]
  have h : (0 : ℚ) ≤ (latencyMs : ℚ) := Nat.cast_nonneg _
  linarith

/-- C3: for every `ModelResponse` and `ModelStats` input, `score` yields a
composite equal to 0.4·quality + 0.3·confidence + 0.2·history + 0.1·speed,
with each of the four components normalized into [0, 10] before
weighting. (`score` is a plain function of its two arguments, so purity
holds by construction.) -/
theorem score_composite_weighted_formula (r : ModelResponse)
    (stats : Option ModelStats) :
    (score r stats).composite =
      4/10 * (score r stats).quality + 3/10 * (score r stats).confidence +
      2/10 * (score r stats).history + 1/10 * (score r stats).speed ∧
    0 ≤ (score r stats).quality ∧ (score r stats).quality ≤ 10 ∧
    0 ≤ (score r stats).confidence ∧ (score r stats).confidence ≤ 10 ∧
    0 ≤ (score r stats).history ∧ (score r stats).history ≤ 10 ∧
    0 ≤ (score r stats).speed ∧ (score r stats).speed ≤ 10 := by
  have hq1 := qualityHeuristic_nonneg r.content
  have hq2 := qualityHeuristic_le_ten r.content
  have hc1 := confidenceComponent_nonneg r.rawConfidence
  have hc2 := confidenceComponent_le_ten r.rawConfidence
  have hh1 := historyComponent_nonneg stats
  have hh2 := historyComponent_le_ten stats
  have hs1 := (speedComponent_pos r.latencyMs).le
  have hs2 := speedComponent_le_ten r.latencyMs
  rcases hr : r.error with _ | ek
  · simp only [score, hr, Option.isSome_none, Bool.false_eq_true, if_false,
      compositeOf]
    exact ⟨by ring_nf, hq1, hq2, hc1, hc2, hh1, hh2, hs1, hs2⟩
  · simp only [score, hr, Option.isSome_some, if_true, compositeOf]
    exact ⟨by ring_nf, le_refl 0, by norm_num, le_refl 0, by norm_num, hh1, hh2,
      le_refl 0, by norm_num⟩

/-- Modelled from the spec: the Performance Ledger's lookup view (§4.5) —
per model identifier, the stats entry when the model has been seen
before, `none` otherwise. -/
def Ledger := String → Option ModelStats

/-- C7: for a model identifier with no prior `ModelStats` entry, the
history component computed by `score` is the fixed cold-start neutral
midpoint — strictly between the component bounds, neither 0 nor 10. -/
theorem score_cold_start_history (r : ModelResponse) (L : Ledger)
    (h : L r.modelId = none) :
    (score r (L r.modelId)).history = coldStartHistory ∧
    coldStartHistory ≠ 0 ∧ coldStartHistory ≠ 10 ∧
    0 < coldStartHistory ∧ coldStartHistory < 10 := by
  rw [h]
  refine ⟨?_, by norm_num [coldStartHistory], by norm_num [coldStartHistory],
    by norm_num [coldStartHistory], by norm_num [coldStartHistory]⟩
  rcases hr : r.error with _ | ek <;>
    simp [score, hr, historyComponent]

theorem score_cold_start_history_witness :
    (fun _ : String => (none : Option ModelStats)) "qwen" = none ∧
    ((score ⟨"qwen", "hi", none, 100, none⟩
        ((fun _ : String => (none : Option ModelStats)) "qwen")).history =
          coldStartHistory ∧
      coldStartHistory ≠ 0 ∧ coldStartHistory ≠ 10 ∧
      0 < coldStartHistory ∧ coldStartHistory < 10) :=
  ⟨rfl, score_cold_start_history ⟨"qwen", "hi", none, 100, none⟩
    (fun _ => none) rfl⟩

/-- A response and its score, as ranked by the Ensemble Selector. -/
structure Scored where
  resp : ModelResponse
  rscore : ResponseScore
deriving DecidableEq

/-- The fixed provider-priority ordering, taken from the order of the
AI_MODELS list in `frontend/src/App.jsx`. -/
def providerPriority : List String :=
  ["gemini", "deepseek", "claude", "gpt", "qwen", "perplx"]

/-- Position of a model identifier in the fixed provider-priority
ordering (providers not in the list rank last). -/
def priorityIndex (modelId : String) : ℕ :=
  providerPriority.indexOf modelId

/-- Modelled from the spec: the §4.4 ranking — maximum composite first,
then lower latency, then the fixed provider-priority ordering — encoded
as a lexicographic minimization key (composite negated so that a larger
composite gives a smaller key). -/
def selKey (s : Scored) : ℚ ×ₗ (ℕ ×ₗ ℕ) :=
  toLex (-s.rscore.composite,
    toLex (s.resp.latencyMs, priorityIndex s.resp.modelId))

/-- Modelled from the spec: pick the best-ranked scored response.
`List.argmin` returns the first element with minimal key, so the result
depends only on the list, never on any map iteration order. -/
def selectBest (l : List Scored) : Option Scored := l.argmin selKey

/-- Modelled from the spec: error responses are never eligible to win
selection (§4.3, §4.4). -/
def viable (l : List Scored) : List Scored :=
  l.filter (fun s => s.resp.error.isNone)

/-- Modelled from the spec: `select(scores) → winner` (§4.4); yields
`none` (the `NoViableResponse` condition) when every response carries an
error. -/
def select (l : List Scored) : Option Scored := selectBest (viable l)

theorem selKey_le_unpack {w x : Scored} (h : selKey w ≤ selKey x) :
    x.rscore.composite ≤ w.rscore.composite ∧
    (x.rscore.composite = w.rscore.composite →
      w.resp.latencyMs ≤ x.resp.latencyMs) ∧
    (x.rscore.composite = w.rscore.composite →
      x.resp.latencyMs = w.resp.latencyMs →
      priorityIndex w.resp.modelId ≤ priorityIndex x.resp.modelId) := by
  unfold selKey at h
  rw [Prod.Lex.le_iff] at h
  rcases h with h | ⟨h1, h2⟩
  · simp only at h
    refine ⟨by linarith, fun he => absurd he ?_, fun he _ => absurd he ?_⟩ <;>
      (intro he; rw [he] at h; exact lt_irrefl _ h)
  · simp only at h1 h2
    have hc : x.rscore.composite = w.rscore.composite := by linarith [neg_inj.mp h1]
    rw [Prod.Lex.le_iff] at h2
    refine ⟨hc.le, fun _ => ?_, fun _ hl => ?_⟩
    · rcases h2 with h2 | ⟨h2, _⟩
      · exact h2.le
      · exact h2.le
    · rcases h2 with h2 | ⟨h2, h3⟩
      · omega
      · exact h3

theorem select_error_none {l : List Scored} {w : Scored}
    (hw : select l = some w) : w.resp.error = none := by
  simp only [select, selectBest] at hw
  have hmem : w ∈ viable l := List.argmin_mem (Option.mem_def.mpr hw)
  have := (List.mem_filter.mp hmem).2
  simpa [Option.isNone_iff_eq_none] using this

/-- C1: under the same model history, an error-kind response's composite
score is strictly lower than any non-error response's composite score,
and `select` never returns an error-carrying response as winner. -/
theorem error_scores_strictly_lower_and_never_selected
    (rErr rOk : ModelResponse) (stats : Option ModelStats)
    (hErr : rErr.error.isSome = true) (hOk : rOk.error = none) :
    (score rErr stats).composite < (score rOk stats).composite ∧
    ∀ (l : List Scored) (w : Scored), select l = some w →
      w.resp.error = none := by
  constructor
  · have hq := qualityHeuristic_nonneg rOk.content
    have hc := confidenceComponent_nonneg rOk.rawConfidence
    have hs := speedComponent_pos rOk.latencyMs
    simp only [score, hErr, if_true, hOk, Option.isSome_none,
      Bool.false_eq_true, if_false, compositeOf]
    linarith
  · intro l w hw
    exact select_error_none hw

/-- A concrete error-kind response used for witnesses. -/
def rErrW : ModelResponse :=
  { modelId := "gemini", content := "", error := some .adapterTimeout,
    latencyMs := 30000, rawConfidence := none }

/-- A concrete successful response used for witnesses. -/
def rOkW : ModelResponse :=
  { modelId := "claude", content := "A complete answer.", error := none,
    latencyMs := 800, rawConfidence := some (9/10) }

theorem error_scores_strictly_lower_and_never_selected_witness :
    rErrW.error.isSome = true ∧ rOkW.error = none ∧
    ((score rErrW none).composite < (score rOkW none).composite ∧
      ∀ (l : List Scored) (w : Scored), select l = some w →
        w.resp.error = none) :=
  ⟨rfl, rfl,
    error_scores_strictly_lower_and_never_selected rErrW rOkW none rfl rfl⟩

/-- C2: selection is deterministic — the winner is independent of the
order in which the scored responses are listed (given that the ranking
keys distinguish the entries, as the fixed provider-priority ordering
does for distinct providers); the winner carries the maximum composite
score among the viable responses, with ties broken by lower latency and
then by the fixed provider-priority ordering. -/
theorem select_deterministic_max_and_tiebreaks
    (l l' : List Scored) (w : Scored)
    (hw : select l = some w) (hperm : l.Perm l')
    (hinj : ∀ x ∈ l, ∀ y ∈ l, selKey x = selKey y → x = y) :
    w ∈ l ∧
    (∀ x ∈ viable l, x.rscore.composite ≤ w.rscore.composite) ∧
    (∀ x ∈ viable l, x.rscore.composite = w.rscore.composite →
      w.resp.latencyMs ≤ x.resp.latencyMs) ∧
    (∀ x ∈ viable l, x.rscore.composite = w.rscore.composite →
      x.resp.latencyMs = w.resp.latencyMs →
      priorityIndex w.resp.modelId ≤ priorityIndex x.resp.modelId) ∧
    select l' = some w := by
  simp only [select, selectBest] at hw ⊢
  have hwv : w ∈ viable l := List.argmin_mem (Option.mem_def.mpr hw)
  have hwl : w ∈ l := (List.mem_filter.mp hwv).1
  have hmin : ∀ x ∈ viable l, selKey w ≤ selKey x := fun x hx =>
    List.le_of_mem_argmin hx (Option.mem_def.mpr hw)
  refine ⟨hwl, fun x hx => (selKey_le_unpack (hmin x hx)).1,
    fun x hx => (selKey_le_unpack (hmin x hx)).2.1,
    fun x hx => (selKey_le_unpack (hmin x hx)).2.2, ?_⟩
  have hpv : (viable l).Perm (viable l') := hperm.filter _
  have hwv' : w ∈ viable l' := hpv.mem_iff.mp hwv
  cases hsel : (viable l').argmin selKey with
  | none =>
      rw [List.argmin_eq_none] at hsel
      rw [hsel] at hwv'
      exact absurd hwv' (List.not_mem_nil w)
  | some w' =>
      have hw'v' : w' ∈ viable l' := List.argmin_mem (Option.mem_def.mpr hsel)
      have hw'v : w' ∈ viable l := hpv.mem_iff.mpr hw'v'
      have h1 : selKey w ≤ selKey w' := hmin w' hw'v
      have h2 : selKey w' ≤ selKey w :=
        List.le_of_mem_argmin hwv' (Option.mem_def.mpr hsel)
      have hkey : selKey w = selKey w' := le_antisymm h1 h2
      have heq : w = w' :=
        hinj w hwl w' (List.mem_filter.mp hw'v).1 hkey
      rw [heq]

/-- Concrete scored entries used for selection witnesses (score values
chosen division-free so they evaluate by `decide`). -/
def selOkA : Scored :=
  ⟨{ modelId := "claude", content := "alpha", error := none,
     latencyMs := 800, rawConfidence := none },
   { quality := 7, confidence := 5, history := 5, speed := 5, composite := 6 }⟩

def selOkB : Scored :=
  ⟨{ modelId := "deepseek", content := "beta", error := none,
     latencyMs := 1200, rawConfidence := none },
   { quality := 3, confidence := 3, history := 3, speed := 3, composite := 3 }⟩

def selErrC : Scored :=
  ⟨{ modelId := "gemini", content := "", error := some .adapterTimeout,
     latencyMs := 30000, rawConfidence := none },
   { quality := 0, confidence := 0, history := 5, speed := 0, composite := 1 }⟩

theorem select_deterministic_max_and_tiebreaks_witness :
    select [selOkA, selOkB, selErrC] = some selOkA ∧
    ([selOkA, selOkB, selErrC].Perm [selErrC, selOkB, selOkA]) ∧
    (selOkA ∈ [selOkA, selOkB, selErrC] ∧
      (∀ x ∈ viable [selOkA, selOkB, selErrC],
        x.rscore.composite ≤ selOkA.rscore.composite) ∧
      (∀ x ∈ viable [selOkA, selOkB, selErrC],
        x.rscore.composite = selOkA.rscore.composite →
        selOkA.resp.latencyMs ≤ x.resp.latencyMs) ∧
      (∀ x ∈ viable [selOkA, selOkB, selErrC],
        x.rscore.composite = selOkA.rscore.composite →
        x.resp.latencyMs = selOkA.resp.latencyMs →
        priorityIndex selOkA.resp.modelId ≤ priorityIndex x.resp.modelId) ∧
      select [selErrC, selOkB, selOkA] = some selOkA) :=
  ⟨by decide, by decide,
    select_deterministic_max_and_tiebreaks
      [selOkA, selOkB, selErrC] [selErrC, selOkB, selOkA]
      selOkA (by decide) (by decide) (by decide)⟩

/-- Modelled from the spec: the possible behaviours of one upstream
provider call (§4.1) — a successful completion, a network-level failure,
a non-2xx HTTP status, a malformed payload (each observed after some
wall-clock latency), or a call that never returns within any bound. -/
inductive Upstream where
  | success (content : String) (latencyMs : ℕ) (rawConfidence : Option ℚ)
  | transportFailure (latencyMs : ℕ)
  | httpStatus (status : ℕ) (latencyMs : ℕ)
  | malformedPayload (latencyMs : ℕ)
  | hang
deriving DecidableEq

/-- Wall-clock latency at which the upstream outcome would be observed;
a hanging call is only ever observed at the timeout ceiling. -/
def Upstream.rawLatency (u : Upstream) (timeoutMs : ℕ) : ℕ :=
  match u with
  | .success _ lat _ => lat
  | .transportFailure lat => lat
  | .httpStatus _ lat => lat
  | .malformedPayload lat => lat
  | .hang => timeoutMs

/-- Modelled from the spec: `invoke(prompt, context, timeout) →
ModelResponse` (§4.1). The function is total — no exception can cross
this boundary — and every upstream failure is captured as an error kind
inside the returned response: a network failure maps to
`adapterTransportError`, a non-2xx status to `adapterTransportError`, a
malformed payload to `adapterInvalidResponse`, and any call not observed
before the timeout ceiling to `adapterTimeout` at latency equal to the
ceiling. Latency is always populated, even on error. -/
def invoke (modelId : String) (u : Upstream) (timeoutMs : ℕ) : ModelResponse :=
  if timeoutMs ≤ u.rawLatency timeoutMs then
    { modelId := modelId, content := "", error := some .adapterTimeout,
      latencyMs := timeoutMs, rawConfidence := none }
  else
    match u with
    | .success c lat conf =>
        { modelId := modelId, content := c, error := none,
          latencyMs := lat, rawConfidence := conf }
    | .transportFailure lat =>
        { modelId := modelId, content := "", error := some .adapterTransportError,
          latencyMs := lat, rawConfidence := none }
    | .httpStatus _ lat =>
        { modelId := modelId, content := "", error := some .adapterTransportError,
          latencyMs := lat, rawConfidence := none }
    | .malformedPayload lat =>
        { modelId := modelId, content := "", error := some .adapterInvalidResponse,
          latencyMs := lat, rawConfidence := none }
    | .hang =>
        { modelId := modelId, content := "", error := some .adapterTimeout,
          latencyMs := timeoutMs, rawConfidence := none }

theorem invoke_modelId (modelId : String) (u : Upstream) (timeoutMs : ℕ) :
    (invoke modelId u timeoutMs).modelId = modelId := by
  unfold invoke
  cases u <;> split <;> rfl

theorem invoke_latency (modelId : String) (u : Upstream) (timeoutMs : ℕ) :
    (invoke modelId u timeoutMs).latencyMs =
      min (u.rawLatency timeoutMs) timeoutMs := by
  unfold invoke
  cases u <;> simp only [Upstream.rawLatency] <;> split <;> simp <;> omega

theorem invoke_error_iff (modelId : String) (u : Upstream) (timeoutMs : ℕ) :
    (invoke modelId u timeoutMs).error = none ↔
      ∃ c lat conf, u = .success c lat conf ∧ lat < timeoutMs := by
  unfold invoke
  cases u <;> simp only [Upstream.rawLatency] <;> split <;> simp
  all_goals first
    | omega
    | exact ⟨_, _, ⟨rfl, rfl⟩, by omega⟩

/-- C5: `invoke` is a total function (so no upstream failure can
propagate past the adapter boundary); its result carries the invoked
model's identifier, is error-free exactly when the upstream call
succeeded within the timeout (every other outcome — transport failure,
non-2xx status, malformed payload, timeout — is an error kind inside
the response), and has its latency populated, equal to the observed
wall-clock latency capped at the timeout ceiling, even on error. -/
theorem invoke_never_raises_and_populates_latency
    (modelId : String) (u : Upstream) (timeoutMs : ℕ) :
    (invoke modelId u timeoutMs).modelId = modelId ∧
    ((invoke modelId u timeoutMs).error = none ↔
      ∃ c lat conf, u = .success c lat conf ∧ lat < timeoutMs) ∧
    (invoke modelId u timeoutMs).latencyMs =
      min (u.rawLatency timeoutMs) timeoutMs ∧
    (invoke modelId u timeoutMs).latencyMs ≤ timeoutMs :=
  ⟨invoke_modelId modelId u timeoutMs, invoke_error_iff modelId u timeoutMs,
    invoke_latency modelId u timeoutMs,
    by rw [invoke_latency]; omega⟩

/-- Modelled from the spec: an orchestrator `Query` (§3) — text, prior
conversation turns, requested model identifiers, ensemble flag, and the
per-call timeout configuration of §6. -/
structure Query where
  text : String
  context : List String
  models : List String
  ensemble : Bool
  timeoutMs : ℕ

/-- Modelled from the spec: `dispatch(query) → set of ModelResponse`
(§4.2) — one adapter invocation per requested model identifier, each
with the same bounded per-call timeout; failed calls still contribute
their error-tagged response. The concurrent fan-out joins on all slots,
so the collected result is the per-model list of adapter outcomes. -/
def dispatch (q : Query) (env : String → Upstream) : List ModelResponse :=
  q.models.map (fun m => invoke m (env m) q.timeoutMs)

/-- C4: for a query with a non-empty, duplicate-free requested model set,
`dispatch` returns exactly one `ModelResponse` per requested model
identifier — no requested model missing, no extras — whatever the
adapter outcomes (including failures and timeouts). -/
theorem dispatch_one_response_per_model (q : Query) (env : String → Upstream)
    (_hne : q.models ≠ []) (hnd : q.models.Nodup) :
    (dispatch q env).map (fun r => r.modelId) = q.models ∧
    (dispatch q env).length = q.models.length ∧
    ∀ m ∈ q.models,
      ((dispatch q env).filter (fun r => r.modelId == m)).length = 1 := by
  have hmap : (dispatch q env).map (fun r => r.modelId) = q.models := by
    unfold dispatch
    rw [List.map_map]
    have : ((fun r : ModelResponse => r.modelId) ∘
        fun m => invoke m (env m) q.timeoutMs) = id := by
      funext m
      simp [invoke_modelId]
    rw [this, List.map_id]
  refine ⟨hmap, ?_, ?_⟩
  · have := congrArg List.length hmap
    simpa using this
  · intro m hm
    have hcount : ((dispatch q env).map (fun r => r.modelId)).count m = 1 := by
      rw [hmap]
      exact List.count_eq_one_of_mem hnd hm
    rw [← List.countP_eq_length_filter]
    have : (dispatch q env).countP (fun r => r.modelId == m) =
        ((dispatch q env).map (fun r => r.modelId)).countP (fun x => x == m) := by
      rw [List.countP_map]
      rfl
    rw [this]
    exact hcount

/-- A concrete environment for witnesses: gemini succeeds quickly,
deepseek's transport fails, every other provider hangs. -/
def envW : String → Upstream := fun m =>
  if m = "gemini" then .success "All good." 500 none
  else if m = "deepseek" then .transportFailure 200
  else .hang

/-- A concrete query for witnesses. -/
def queryW : Query :=
  { text := "Explain quantum computing", context := [],
    models := ["gemini", "deepseek", "claude"], ensemble := true,
    timeoutMs := 30000 }

theorem dispatch_one_response_per_model_witness :
    queryW.models ≠ [] ∧ queryW.models.Nodup ∧
    ((dispatch queryW envW).map (fun r => r.modelId) = queryW.models ∧
      (dispatch queryW envW).length = queryW.models.length ∧
      ∀ m ∈ queryW.models,
        ((dispatch queryW envW).filter
          (fun r => r.modelId == m)).length = 1) :=
  ⟨by decide, by decide,
    dispatch_one_response_per_model queryW envW (by decide) (by decide)⟩

/-- Modelled from the spec: the orchestration-level failure conditions
of §7 that surface to the caller. -/
inductive OrchError where
  | noViableResponse
  | unknownModelIdentifier
deriving DecidableEq

/-- Modelled from the spec: what a successful orchestration call returns
(§6) — the winning response's model identifier, content and timestamp,
the full per-model response set (including error-tagged responses), and
the scores used to select the winner. This is the shape the frontend
consumes as `best_response` / `responses` in `App.jsx`. -/
structure OrchResult where
  winnerModelId : String
  winnerContent : String
  timestamp : ℕ
  responses : List ModelResponse
  scores : List (String × ResponseScore)
deriving DecidableEq

/-- Score every dispatched response against the ledger entry of its
model at the time of scoring. -/
def scoreAll (resps : List ModelResponse) (L : Ledger) : List Scored :=
  resps.map (fun r => ⟨r, score r (L r.modelId)⟩)

/-- Modelled from the spec: the orchestration pipeline of §2 —
dispatch, score, select; a successful call returns the winner together
with the full response set and the scores, and when every response
carries an error the call fails with `noViableResponse` (§4.4, §7). -/
def orchestrate (q : Query) (env : String → Upstream) (L : Ledger)
    (now : ℕ) : Except OrchError OrchResult :=
  match select (scoreAll (dispatch q env) L) with
  | none => .error .noViableResponse
  | some w =>
      .ok { winnerModelId := w.resp.modelId, winnerContent := w.resp.content,
            timestamp := now, responses := dispatch q env,
            scores := (scoreAll (dispatch q env) L).map
              (fun s => (s.resp.modelId, s.rscore)) }

/-- C6: every successful orchestration call returns the winning
response's model identifier, content and timestamp, the full per-model
response set (one entry per dispatched response, error-tagged responses
included), and the scores used by the selector — and the advertised
winner is exactly the response chosen by `select`, never an error
response. -/
theorem orchestrate_ok_returns_winner_responses_scores
    (q : Query) (env : String → Upstream) (L : Ledger) (now : ℕ)
    (res : OrchResult) (h : orchestrate q env L now = .ok res) :
    res.responses = dispatch q env ∧
    res.scores = (scoreAll (dispatch q env) L).map
      (fun s => (s.resp.modelId, s.rscore)) ∧
    res.timestamp = now ∧
    ∃ w, select (scoreAll (dispatch q env) L) = some w ∧
      res.winnerModelId = w.resp.modelId ∧
      res.winnerContent = w.resp.content ∧
      w.resp.error = none := by
  unfold orchestrate at h
  cases hsel : select (scoreAll (dispatch q env) L) with
  | none =>
      rw [hsel] at h
      exact absurd h (by simp)
  | some w =>
      rw [hsel] at h
      have hres : res =
          { winnerModelId := w.resp.modelId, winnerContent := w.resp.content,
            timestamp := now, responses := dispatch q env,
            scores := (scoreAll (dispatch q env) L).map
              (fun s => (s.resp.modelId, s.rscore)) } := by
        injection h with h'
        exact h'.symm
      subst hres
      exact ⟨rfl, rfl, rfl, w, rfl, rfl, rfl, select_error_none hsel⟩

/-- A single-model query for the orchestration witness. -/
def queryW1 : Query :=
  { text := "hi", context := [], models := ["gemini"], ensemble := true,
    timeoutMs := 30000 }

/-- The response the witness environment produces for gemini. -/
def respW1 : ModelResponse := invoke "gemini" (envW "gemini") 30000

/-- An empty ledger (no model seen yet). -/
def emptyLedger : Ledger := fun _ => none

/-- The orchestration result of the witness run. -/
def resW1 : OrchResult :=
  { winnerModelId := "gemini", winnerContent := "All good.", timestamp := 42,
    responses := [respW1],
    scores := [("gemini", score respW1 (emptyLedger "gemini"))] }

theorem orchestrate_ok_returns_winner_responses_scores_witness :
    orchestrate queryW1 envW emptyLedger 42 = .ok resW1 ∧
    (resW1.responses = dispatch queryW1 envW ∧
      resW1.scores = (scoreAll (dispatch queryW1 envW) emptyLedger).map
        (fun s => (s.resp.modelId, s.rscore)) ∧
      resW1.timestamp = 42 ∧
      ∃ w, select (scoreAll (dispatch queryW1 envW) emptyLedger) = some w ∧
        resW1.winnerModelId = w.resp.modelId ∧
        resW1.winnerContent = w.resp.content ∧
        w.resp.error = none) :=
  ⟨rfl, orchestrate_ok_returns_winner_responses_scores
    queryW1 envW emptyLedger 42 resW1 rfl⟩

/-- Modelled from the spec: the stats entry created on first sight of a
new model identifier (§3). -/
def initialStats : ModelStats :=
  { avgScore := 0, avgLatencyMs := 0, invocationCount := 0,
    selectedCount := 0, positiveFeedback := 0, negativeFeedback := 0 }

/-- Modelled from the spec: `update(modelId, score, wasSelected)` (§4.5)
applied to one stats entry. The running average uses the cumulative-mean
formula (one of the two choices §4.5 allows; chosen because §8 requires
statistics to be order-independent, which an exponentially-weighted
update would violate). -/
def updateStats (st : ModelStats) (obsScore : ℚ) (wasSelected : Bool) :
    ModelStats :=
  { st with
    avgScore := (st.avgScore * (st.invocationCount : ℚ) + obsScore) /
      ((st.invocationCount : ℚ) + 1),
    invocationCount := st.invocationCount + 1,
    selectedCount := st.selectedCount + (if wasSelected then 1 else 0) }

/-- Modelled from the spec: the Performance Ledger update protocol —
per-model-identifier update, creating the entry on first sight (§4.5). -/
def ledgerUpdate (L : Ledger) (m : String) (obsScore : ℚ)
    (wasSelected : Bool) : Ledger :=
  fun k =>
    if k = m then some (updateStats ((L k).getD initialStats) obsScore wasSelected)
    else L k

/-- C8: ledger updates are order-independent for the running average —
applying observation A then B to a model's entry yields the same running
average score as applying B then A. -/
theorem ledger_update_order_independent (L : Ledger) (m : String)
    (a b : ℚ) (sa sb : Bool) :
    (ledgerUpdate (ledgerUpdate L m a sa) m b sb m).map ModelStats.avgScore =
    (ledgerUpdate (ledgerUpdate L m b sb) m a sa m).map ModelStats.avgScore := by
  simp only [ledgerUpdate, if_pos rfl, Option.getD_some, Option.map_some]
  congr 1
  simp only [updateStats]
  have h1 : ((((L m).getD initialStats).invocationCount : ℚ) + 1) ≠ 0 := by
    positivity
  push_cast
  field_simp
  exact ⟨by ring, by ring⟩

/-- From `frontend/src/App.jsx` `toggleModel`: flip a model's membership
in the selected-models list — `prev.includes(modelId) ?
prev.filter(id => id !== modelId) : [...prev, modelId]`. -/
def toggleModel (modelId : String) (prev : List String) : List String :=
  if modelId ∈ prev then prev.filter (fun id => id ≠ modelId)
  else prev ++ [modelId]

/-- C9: on a duplicate-free selected-models list, `toggleModel` flips
membership — when the model is present (so the list splits as
`l1 ++ modelId :: l2`) the result is `l1 ++ l2`, i.e. the list with that
model removed and everything else unchanged in order; otherwise the
model is appended at the end — and toggling twice restores the original
membership. -/
theorem toggleModel_flips_membership (modelId : String) (prev : List String)
    (hnd : prev.Nodup) :
    (∀ l1 l2, prev = l1 ++ modelId :: l2 →
      toggleModel modelId prev = l1 ++ l2) ∧
    (modelId ∉ prev → toggleModel modelId prev = prev ++ [modelId]) ∧
    (∀ x, x ∈ toggleModel modelId (toggleModel modelId prev) ↔ x ∈ prev) := by
  refine ⟨?_, ?_, ?_⟩
  · intro l1 l2 heq
    subst heq
    have hm : modelId ∈ l1 ++ modelId :: l2 := by simp
    rw [toggleModel, if_pos hm, List.filter_append]
    have hnl1 : modelId ∉ l1 := by
      rcases List.nodup_append.mp hnd with ⟨_, _, hdisj⟩
      intro hx
      exact hdisj hx (by simp)
    have hnl2 : modelId ∉ l2 := by
      rcases List.nodup_append.mp hnd with ⟨_, hr, _⟩
      exact (List.nodup_cons.mp hr).1
    have h1 : l1.filter (fun id => id ≠ modelId) = l1 :=
      List.filter_eq_self.mpr (fun a ha => by
        simp only [decide_eq_true_eq]
        intro he
        exact hnl1 (he ▸ ha))
    have h2 : (modelId :: l2).filter (fun id => id ≠ modelId) = l2 := by
      rw [List.filter_cons]
      have hd : (decide (modelId ≠ modelId)) = false := by simp
      rw [hd]
      simp only [Bool.false_eq_true, if_false]
      exact List.filter_eq_self.mpr (fun a ha => by
        simp only [decide_eq_true_eq]
        intro he
        exact hnl2 (he ▸ ha))
    rw [h1, h2]
  · intro hm
    rw [toggleModel, if_neg hm]
  · intro x
    by_cases hm : modelId ∈ prev
    · have hinner : toggleModel modelId prev =
          prev.filter (fun id => id ≠ modelId) := by
        rw [toggleModel, if_pos hm]
      rw [hinner]
      have hnotin : modelId ∉ prev.filter (fun id => id ≠ modelId) := by
        intro hx
        have := (List.mem_filter.mp hx).2
        simp at this
      rw [toggleModel, if_neg hnotin]
      by_cases hx : x = modelId
      · subst hx
        simp [hm]
      · simp [List.mem_filter, hx]
    · have hinner : toggleModel modelId prev = prev ++ [modelId] := by
        rw [toggleModel, if_neg hm]
      rw [hinner]
      have hin : modelId ∈ prev ++ [modelId] := by simp
      rw [toggleModel, if_pos hin]
      have hfilter : (prev ++ [modelId]).filter (fun id => id ≠ modelId) = prev := by
        rw [List.filter_append]
        have h1 : prev.filter (fun id => id ≠ modelId) = prev :=
          List.filter_eq_self.mpr (fun a ha => by
            simp only [decide_eq_true_eq]
            intro he
            exact hm (he ▸ ha))
        have h2 : [modelId].filter (fun id => id ≠ modelId) = [] := by simp
        rw [h1, h2, List.append_nil]
      rw [hfilter]

theorem toggleModel_flips_membership_witness :
    (["gemini", "deepseek", "claude"] : List String).Nodup ∧
    ((∀ l1 l2, (["gemini", "deepseek", "claude"] : List String) =
        l1 ++ "deepseek" :: l2 →
      toggleModel "deepseek" ["gemini", "deepseek", "claude"] = l1 ++ l2) ∧
    (("deepseek" : String) ∉ ["gemini", "deepseek", "claude"] →
      toggleModel "deepseek" ["gemini", "deepseek", "claude"] =
        ["gemini", "deepseek", "claude"] ++ ["deepseek"]) ∧
    (∀ x, x ∈ toggleModel "deepseek"
        (toggleModel "deepseek" ["gemini", "deepseek", "claude"]) ↔
      x ∈ (["gemini", "deepseek", "claude"] : List String))) :=
  ⟨by decide,
    toggleModel_flips_membership "deepseek" ["gemini", "deepseek", "claude"]
      (by decide)⟩

/-- A chat message as held in the frontend `messages` list. -/
structure ChatMessage where
  id : ℕ
  role : String
  content : String
  timestamp : ℕ
deriving DecidableEq

/-- A conversation as held in the frontend sidebar list. -/
structure Conversation where
  id : ℕ
  title : String
deriving DecidableEq

/-- The body of the POST /chat request issued by `sendMessage`. -/
structure ChatRequest where
  conversationId : Option ℕ
  message : String
  selectedModels : List String
  useEnsemble : Bool
deriving DecidableEq

/-- The part of the `App` component state that `sendMessage` reads or
writes, plus the list of POST /chat requests issued so far (so that
"no request was sent" is observable). -/
structure AppState where
  messages : List ChatMessage
  inputMessage : String
  conversations : List Conversation
  currentConversation : Option Conversation
  selectedModels : List String
  useEnsemble : Bool
  isLoading : Bool
  sentRequests : List ChatRequest
deriving DecidableEq

/-- From `frontend/src/App.jsx` `sendMessage`, up to its first await
point: the guard `if (!inputMessage.trim() || isLoading) return;`
followed by clearing the input, setting the loading flag, optimistically
appending the user message, and issuing the POST /chat request. -/
def sendMessageStart (st : AppState) (now : ℕ) : AppState :=
  if st.inputMessage.trim = "" ∨ st.isLoading = true then st
  else
    { st with
      inputMessage := "",
      isLoading := true,
      messages := st.messages ++
        [{ id := now, role := "user", content := st.inputMessage,
           timestamp := now }],
      sentRequests := st.sentRequests ++
        [{ conversationId := st.currentConversation.map (fun c => c.id),
           message := st.inputMessage,
           selectedModels := st.selectedModels,
           useEnsemble := st.useEnsemble }] }

/-- From `frontend/src/App.jsx`: the send button's disabled condition
`disabled={isLoading || !inputMessage.trim()}`. -/
def sendButtonDisabled (st : AppState) : Bool :=
  st.isLoading || (st.inputMessage.trim == "")

/-- C10: when the trimmed input is empty or a request is already in
flight, `sendMessage` returns without issuing the POST /chat request and
leaves the messages list, the input, the conversations and the current
conversation unchanged (indeed the whole state is unchanged), and the
send button is disabled under the same condition. -/
theorem sendMessage_guard_blocks_and_preserves_state (st : AppState) (now : ℕ)
    (h : st.inputMessage.trim = "" ∨ st.isLoading = true) :
    sendMessageStart st now = st ∧
    (sendMessageStart st now).sentRequests = st.sentRequests ∧
    (sendMessageStart st now).messages = st.messages ∧
    (sendMessageStart st now).inputMessage = st.inputMessage ∧
    (sendMessageStart st now).conversations = st.conversations ∧
    (sendMessageStart st now).currentConversation = st.currentConversation ∧
    sendButtonDisabled st = true := by
  have heq : sendMessageStart st now = st := by
    rw [sendMessageStart, if_pos h]
  refine ⟨heq, by rw [heq], by rw [heq], by rw [heq], by rw [heq], by rw [heq], ?_⟩
  rcases h with h | h
  · simp [sendButtonDisabled, h]
  · simp [sendButtonDisabled, h]

/-- A concrete state (a request in flight) for the witness. -/
def stLoadingW : AppState :=
  { messages := [⟨1, "user", "hello", 10⟩], inputMessage := "next question",
    conversations := [⟨7, "New Conversation"⟩],
    currentConversation := some ⟨7, "New Conversation"⟩,
    selectedModels := ["gemini", "deepseek", "claude"], useEnsemble := true,
    isLoading := true, sentRequests := [] }

theorem sendMessage_guard_blocks_and_preserves_state_witness :
    (stLoadingW.inputMessage.trim = "" ∨ stLoadingW.isLoading = true) ∧
    (sendMessageStart stLoadingW 11 = stLoadingW ∧
      (sendMessageStart stLoadingW 11).sentRequests = stLoadingW.sentRequests ∧
      (sendMessageStart stLoadingW 11).messages = stLoadingW.messages ∧
      (sendMessageStart stLoadingW 11).inputMessage = stLoadingW.inputMessage ∧
      (sendMessageStart stLoadingW 11).conversations = stLoadingW.conversations ∧
      (sendMessageStart stLoadingW 11).currentConversation =
        stLoadingW.currentConversation ∧
      sendButtonDisabled stLoadingW = true) :=
  ⟨Or.inr rfl,
    sendMessage_guard_blocks_and_preserves_state stLoadingW 11 (Or.inr rfl)⟩

end Chatbot
